import Mathlib

/-!
Verification of the detection pipeline in `src/utils/detect.js` of the
playing-card-detect repository.

The pipeline is shallowly embedded:
* numeric data (Float32Array contents, ratios) is modelled by `ℚ`, with the
  extended JavaScript number results (`Infinity`, `-Infinity`, `NaN`) that
  the code can actually produce modelled by `JSRat`;
* `preprocessing` (detect.js lines 81–111) is modelled by a pure function on
  the source dimensions, recording the padding arguments passed to
  `copyMakeBorder` and the two ratios;
* the box-decoding loop of `detectImage` (detect.js lines 44–66) is modelled
  by `decodeRow` / `detectBoxes`;
* the control flow of `detectImage` / `detectFrame` / `detectVideo`
  (allocation and release of native buffers, the two awaited backend calls,
  rendering, the completion callback and `requestAnimationFrame`
  rescheduling) is modelled by event traces.
-/

namespace Detect

/-- Extended JavaScript numbers, as far as this pipeline can produce them:
a finite value (modelled as a rational), `Infinity`, `-Infinity` or `NaN`. -/
inductive JSRat where
  | num (q : ℚ)
  | posInf
  | negInf
  | nan
deriving DecidableEq, Repr

/-- JavaScript division `a / b` of finite numbers: division by zero gives
`Infinity` / `-Infinity` / `NaN` instead of failing. -/
def jsDiv (a b : ℚ) : JSRat :=
  if b = 0 then
    if a = 0 then .nan else if 0 < a then .posInf else .negInf
  else .num (a / b)

/-- Model of `Math.max(...l)` over a spread list of finite numbers: `-Infinity` on an
empty argument list, otherwise the maximum (detect.js line 51). -/
def jsMax : List ℚ → JSRat
  | [] => .negInf
  | q :: qs =>
    match jsMax qs with
    | .num m => .num (max q m)
    | _ => .num q

/-- Model of `l.indexOf v` for a finite value `v`: index of the first strictly equal
element, `-1` when absent. -/
def jsIndexOfQ : List ℚ → ℚ → Int
  | [], _ => -1
  | x :: xs, v =>
    if x = v then 0
    else
      let r := jsIndexOfQ xs v
      if r < 0 then -1 else r + 1

/-- Model of `scores.indexOf(score)` (detect.js line 52) where `score` came from
`Math.max`: a non-finite value is never strictly equal to a finite entry of a
Float32Array slice, so it gives `-1`. -/
def jsIndexOf (l : List ℚ) : JSRat → Int
  | .num v => jsIndexOfQ l v
  | _ => -1

/-- Model of `arr.slice(a, b)` on a typed array: the elements with indices in
`[a, b)`, clamped to the array. -/
def jsSlice (l : List ℚ) (a b : Nat) : List ℚ :=
  (l.take b).drop a

/-- Result of `preprocessing` (detect.js lines 81–111), restricted to what
the claims are about: the four border widths passed to `copyMakeBorder`
(line 94), the dimensions of the padded matrix, and the two ratios
(lines 90, 92). `rows`/`cols` are the source image's height/width. -/
structure PreprocOut where
  padTop : Nat
  padBottom : Nat
  padLeft : Nat
  padRight : Nat
  paddedRows : Nat
  paddedCols : Nat
  xRatio : JSRat
  yRatio : JSRat
deriving DecidableEq, Repr

/-- Model of `preprocessing` (detect.js lines 81–111): `maxSize = max(rows, cols)`
(line 88), `xPad = maxSize - cols`, `xRatio = maxSize / cols` (lines 89–90),
`yPad = maxSize - rows`, `yRatio = maxSize / rows` (lines 91–92),
`copyMakeBorder(matC3, matPad, 0, yPad, 0, xPad, BORDER_CONSTANT)`
(line 94). There is no dimension check anywhere in the source: the function
always proceeds to the blob construction and returns. -/
def preprocessing (rows cols : Nat) : PreprocOut :=
  let maxSize := max rows cols
  let xPad := maxSize - cols
  let yPad := maxSize - rows
  { padTop := 0
    padBottom := yPad
    padLeft := 0
    padRight := xPad
    paddedRows := rows + yPad
    paddedCols := cols + xPad
    xRatio := jsDiv (maxSize : ℚ) (cols : ℚ)
    yRatio := jsDiv (maxSize : ℚ) (rows : ℚ) }

/-- Modelled from the spec: the repository's own code never raises an
`InvalidImageSource` condition; the spec's §4.1/§7 require preprocessing to
fail fast on a zero-dimension source instead of proceeding with degenerate
ratios. -/
inductive PreprocError where
  | invalidImageSource
deriving DecidableEq, Repr

/-- Modelled from the spec: `preprocessing` as §4.1/§7 demand it — fail with
`InvalidImageSource` on a zero-dimension source, no partial result; otherwise
behave as the code does. -/
def preprocessingSpec (rows cols : Nat) : Except PreprocError PreprocOut :=
  if rows = 0 ∨ cols = 0 then .error .invalidImageSource
  else .ok (preprocessing rows cols)

/-- A decoded detection (detect.js lines 61–65): class id from `indexOf`
(so an `Int`, `-1` possible), probability from `Math.max` (so a `JSRat`,
`-Infinity` possible), and the corner-form bounding rectangle
`[x, y, w, h]`. -/
structure Box where
  label : Int
  probability : JSRat
  bounding : List ℚ
deriving DecidableEq, Repr

/-- One iteration of the decoding loop (detect.js lines 48–65) on the row
`data`: `box = data.slice(0, 4)`, `scores = data.slice(4)`,
`score = Math.max(...scores)`, `label = scores.indexOf(score)`, and the
center-form to corner-form conversion of lines 54–59. Rows always have at
least 4 entries (`selected.dims[2] ≥ 4`); `getD _ 0` reads `box[i]`. -/
def decodeRow (xRatio yRatio : ℚ) (data : List ℚ) : Box :=
  let box := jsSlice data 0 4
  let scores := data.drop 4
  let score := jsMax scores
  let label := jsIndexOf scores score
  let x := (box.getD 0 0 - 0.5 * box.getD 2 0) * xRatio
  let y := (box.getD 1 0 - 0.5 * box.getD 3 0) * yRatio
  let w := box.getD 2 0 * xRatio
  let h := box.getD 3 0 * yRatio
  { label := label, probability := score, bounding := [x, y, w, h] }

/-- The `selected` tensor returned by the NMS backend call (detect.js
line 42), shaped `[1, n, rowWidth]`: `n = selected.dims[1]`,
`rowWidth = selected.dims[2]`, `data = selected.data`. -/
structure SelectedTensor where
  n : Nat
  rowWidth : Nat
  data : List ℚ
deriving DecidableEq, Repr

/-- The full decoding loop of `detectImage` (detect.js lines 44–66): one
`Box` pushed per `idx < selected.dims[1]`, each decoded from the row slice
`selected.data.slice(idx * dims[2], (idx + 1) * dims[2])`. -/
def detectBoxes (sel : SelectedTensor) (xRatio yRatio : ℚ) : List Box :=
  (List.range sel.n).map fun idx =>
    decodeRow xRatio yRatio
      (jsSlice sel.data (idx * sel.rowWidth) ((idx + 1) * sel.rowWidth))

/-! Trace model of the control flow.

`detectImage` allocates four native buffers (`mat`, `matC3`, `matPad` inside
`preprocessing`, plus the `input` blob), awaits two backend calls, renders,
invokes the caller's callback and finally deletes the blob. `detectVideo`'s
pump checks the source, runs `detectFrame`, and reschedules itself via
`requestAnimationFrame` from inside the callback. -/

/-- The native OpenCV buffers allocated during one `detectImage` call:
`mat` (line 83), `matC3` (line 84), `matPad` (line 93) and the `input` blob
(line 96). -/
inductive Buffer where
  | mat
  | matC3
  | matPad
  | inputBlob
deriving DecidableEq, Repr

/-- Observable events of one `detectImage` / pump tick execution. -/
inductive Event where
  | alloc (b : Buffer)
  | deleteBuf (b : Buffer)
  | netRunStart
  | netRunEnd
  | nmsRunStart
  | nmsRunEnd
  | render
  | callbackInvoke
  | scheduleTick
  | clearCanvas
deriving DecidableEq, Repr

/-- Whether a promise settled successfully. -/
inductive Outcome where
  | fulfilled
  | rejected
deriving DecidableEq, Repr

/-- Events of `preprocessing` (detect.js lines 81–111): allocate `mat`,
`matC3`, `matPad`, build the `input` blob, then delete `mat`, `matC3`,
`matPad` (lines 106–108). `preprocessing` is synchronous and the repository
code has no failure path of its own inside it. -/
def preprocessingTrace : List Event :=
  [.alloc .mat, .alloc .matC3, .alloc .matPad, .alloc .inputBlob,
   .deleteBuf .mat, .deleteBuf .matC3, .deleteBuf .matPad]

/-- Event trace and outcome of one `detectImage` call (detect.js
lines 16–72), given whether `session.net.run` (line 41) and
`session.nms.run` (line 42) fulfill, and the events the caller-supplied
callback performs when invoked (line 69). A rejected await aborts the async
function: everything after the failing line — including `input.delete()` on
line 70 — does not run, and the returned promise rejects. -/
def detectImageRun (netOk nmsOk : Bool) (cbTrace : List Event) :
    List Event × Outcome :=
  if !netOk then
    (preprocessingTrace ++ [.netRunStart, .netRunEnd], .rejected)
  else if !nmsOk then
    (preprocessingTrace ++ [.netRunStart, .netRunEnd, .nmsRunStart, .nmsRunEnd],
     .rejected)
  else
    (preprocessingTrace ++
      [.netRunStart, .netRunEnd, .nmsRunStart, .nmsRunEnd,
       .render, .callbackInvoke] ++ cbTrace ++ [.deleteBuf .inputBlob],
     .fulfilled)

/-- Environment of one pump tick of `detectVideo` (detect.js lines 181–198):
the video element's `videoWidth`, whether `srcObject` is non-null, and
whether the two backend calls of this tick fulfill. -/
structure TickParams where
  videoWidth : Nat
  hasStream : Bool
  netOk : Bool
  nmsOk : Bool
deriving DecidableEq, Repr

/-- One tick of the pump's `detect` function (detect.js lines 181–198):
if `videoWidth === 0 && srcObject === null`, clear the canvas and return
(lines 182–186); otherwise run `detectFrame` (which awaits `detectImage`)
with the callback `() => requestAnimationFrame(detect)` (lines 188–197).
`detectFrame(...)` is called without `await` and without `.catch`, so a
rejection of its promise is an unhandled rejection (second component). -/
def pumpTick (p : TickParams) : List Event × Bool :=
  if p.videoWidth = 0 ∧ p.hasStream = false then
    ([.clearCanvas], false)
  else
    let r := detectImageRun p.netOk p.nmsOk [.scheduleTick]
    (r.1, decide (r.2 = .rejected))

/-- A run of the pump: ticks execute one after another (single-threaded,
each `requestAnimationFrame` callback fires only after the current one
returned), and a further tick happens only if the current tick actually
scheduled one. The list supplies each tick's environment. -/
def pumpRun : List TickParams → List Event
  | [] => []
  | p :: ps =>
    let t := (pumpTick p).1
    t ++ (if Event.scheduleTick ∈ t then pumpRun ps else [])

/-- Contribution of one event to the number of in-flight backend
invocations. -/
def inferDelta : Event → Int
  | .netRunStart => 1
  | .netRunEnd => -1
  | .nmsRunStart => 1
  | .nmsRunEnd => -1
  | _ => 0

/-- Number of backend invocations in flight after a trace. -/
def inFlight (t : List Event) : Int :=
  (t.map inferDelta).sum

/-- Executable check that, starting from `c` in-flight invocations, the
count never exceeds 1 along the trace. -/
def inFlightOk (c : Int) : List Event → Bool
  | [] => true
  | e :: es => decide (c + inferDelta e ≤ 1) && inFlightOk (c + inferDelta e) es

/-! Helper lemmas. -/

/-- Lemma: `Math.max` over a non-empty spread list returns a finite value that is an
element of the list and an upper bound of it. -/
theorem jsMax_spec (l : List ℚ) (hl : l ≠ []) :
    ∃ m, jsMax l = .num m ∧ m ∈ l ∧ ∀ x ∈ l, x ≤ m := by
  induction l with
  | nil => exact absurd rfl hl
  | cons a t ih =>
    by_cases ht : t = []
    · subst ht
      exact ⟨a, rfl, List.mem_singleton.mpr rfl, by simp⟩
    · obtain ⟨m, hm, hmem, hub⟩ := ih ht
      refine ⟨max a m, by simp [jsMax, hm], ?_, ?_⟩
      · rcases max_choice a m with h | h
        · rw [h]; exact List.mem_cons_self a t
        · rw [h]; exact List.mem_cons_of_mem a hmem
      · intro x hx
        rcases List.mem_cons.mp hx with rfl | hx
        · exact le_max_left _ _
        · exact le_trans (hub x hx) (le_max_right _ _)

/-- Lemma: `indexOf` of a value present in the list returns the index of its first
occurrence. -/
theorem jsIndexOfQ_spec (l : List ℚ) (v : ℚ) (hv : v ∈ l) :
    ∃ i : Nat, jsIndexOfQ l v = (i : Int) ∧ i < l.length ∧
      l.getD i 0 = v ∧ ∀ j < i, l.getD j 0 ≠ v := by
  induction l with
  | nil => simp at hv
  | cons a t ih =>
    by_cases ha : a = v
    · exact ⟨0, by simp [jsIndexOfQ, ha], by simp, by simpa using ha, by omega⟩
    · have hv' : v ∈ t := by
        rcases List.mem_cons.mp hv with rfl | h
        · exact absurd rfl ha
        · exact h
      obtain ⟨i, hi, hlen, hget, hbef⟩ := ih hv'
      refine ⟨i + 1, ?_, by simpa using hlen, by simpa using hget, ?_⟩
      · have : ¬ ((i : Int) < 0) := by omega
        simp [jsIndexOfQ, ha, hi, this]
      · intro j hj
        cases j with
        | zero => simpa using ha
        | succ k =>
          have : k < i := by omega
          simpa using hbef k this

/-! Claims. -/

/-- C1: every Box emitted by the decoding loop of `detectImage` decodes the
row's center-form quad `(cx, cy, w, h)` into the bounding rectangle
`[(cx - 0.5*w)*xRatio, (cy - 0.5*h)*yRatio, w*xRatio, h*yRatio]`; the `i`-th
emitted Box is the decode of the `i`-th row slice, and the literal instance
cx=100, cy=50, w=40, h=20, xRatio=2, yRatio=1 yields
bounding = [160, 40, 80, 20]. -/
theorem c1_bounding_formula (xR yR cx cy w h : ℚ) (rest : List ℚ)
    (sel : SelectedTensor) (i : Nat) (hi : i < sel.n) :
    (decodeRow xR yR (cx :: cy :: w :: h :: rest)).bounding =
        [(cx - 0.5 * w) * xR, (cy - 0.5 * h) * yR, w * xR, h * yR] ∧
    (detectBoxes sel xR yR)[i]? =
        some (decodeRow xR yR
          (jsSlice sel.data (i * sel.rowWidth) ((i + 1) * sel.rowWidth))) ∧
    (decodeRow 2 1 [100, 50, 40, 20]).bounding = [160, 40, 80, 20] := by
  refine ⟨?_, ?_, ?_⟩
  · simp [decodeRow, jsSlice]
  · simp [detectBoxes, List.getElem?_map, List.getElem?_range hi]
  · norm_num [decodeRow, jsSlice]

/-- C1 witness at a concrete tensor and index. -/
theorem c1_bounding_formula_witness :
    0 < (SelectedTensor.mk 1 4 [100, 50, 40, 20]).n ∧
    ((decodeRow 2 1 ((100 : ℚ) :: 50 :: 40 :: 20 :: [])).bounding =
        [(100 - 0.5 * 40) * 2, (50 - 0.5 * 20) * 1, 40 * 2, 20 * 1] ∧
    (detectBoxes (SelectedTensor.mk 1 4 [100, 50, 40, 20]) 2 1)[0]? =
        some (decodeRow 2 1
          (jsSlice (SelectedTensor.mk 1 4 [100, 50, 40, 20]).data (0 * 4) ((0 + 1) * 4))) ∧
    (decodeRow 2 1 [100, 50, 40, 20]).bounding = [160, 40, 80, 20]) :=
  ⟨by decide, c1_bounding_formula 2 1 100 50 40 20 []
      (SelectedTensor.mk 1 4 [100, 50, 40, 20]) 0 (by decide)⟩

/-- C2: preprocessing pads only bottom/right up to the square side
`maxSize = max rows cols`, and returns finite ratios
`xRatio = maxSize / width`, `yRatio = maxSize / height` with
`xRatio * width = yRatio * height = maxSize`; a square source gives both
ratios `= 1`, and a non-square source gives distinct ratios. -/
theorem c2_preprocessing_ratios (rows cols : Nat) (hr : 0 < rows) (hc : 0 < cols) :
    (preprocessing rows cols).padTop = 0 ∧
    (preprocessing rows cols).padLeft = 0 ∧
    (preprocessing rows cols).paddedRows = max rows cols ∧
    (preprocessing rows cols).paddedCols = max rows cols ∧
    ∃ qx qy : ℚ,
      (preprocessing rows cols).xRatio = .num qx ∧
      (preprocessing rows cols).yRatio = .num qy ∧
      qx = (max rows cols : ℚ) / (cols : ℚ) ∧
      qy = (max rows cols : ℚ) / (rows : ℚ) ∧
      qx * (cols : ℚ) = (max rows cols : ℚ) ∧
      qy * (rows : ℚ) = (max rows cols : ℚ) ∧
      (rows = cols → qx = 1 ∧ qy = 1) ∧
      (rows ≠ cols → qx ≠ qy) := by
  have hc0 : (cols : ℚ) ≠ 0 := Nat.cast_ne_zero.mpr hc.ne'
  have hr0 : (rows : ℚ) ≠ 0 := Nat.cast_ne_zero.mpr hr.ne'
  have hm : 0 < max rows cols := lt_of_lt_of_le hr (le_max_left _ _)
  have hm0 : ((max rows cols : Nat) : ℚ) ≠ 0 := Nat.cast_ne_zero.mpr hm.ne'
  refine ⟨rfl, rfl, Nat.add_sub_cancel' (le_max_left rows cols),
    Nat.add_sub_cancel' (le_max_right rows cols),
    (max rows cols : ℚ) / (cols : ℚ), (max rows cols : ℚ) / (rows : ℚ),
    ?_, ?_, rfl, rfl, div_mul_cancel₀ _ hc0, div_mul_cancel₀ _ hr0, ?_, ?_⟩
  · simp [preprocessing, jsDiv, hc0]
  · simp [preprocessing, jsDiv, hr0]
  · intro h
    subst h
    rw [max_self]
    exact ⟨div_self hc0, div_self hr0⟩
  · intro hne heq
    have hr' : (0 : ℚ) < (rows : ℚ) := by exact_mod_cast hr
    have hmq : (0 : ℚ) < max (rows : ℚ) (cols : ℚ) :=
      lt_of_lt_of_le hr' (le_max_left _ _)
    rw [div_eq_div_iff hc0 hr0] at heq
    exact hne (Nat.cast_injective (mul_left_cancel₀ hmq.ne' heq))

/-- C2 witness at a 2×3 source (rows = 2, cols = 3). -/
theorem c2_preprocessing_ratios_witness :
    0 < 2 ∧ 0 < 3 ∧
    ((preprocessing 2 3).padTop = 0 ∧
    (preprocessing 2 3).padLeft = 0 ∧
    (preprocessing 2 3).paddedRows = max 2 3 ∧
    (preprocessing 2 3).paddedCols = max 2 3 ∧
    ∃ qx qy : ℚ,
      (preprocessing 2 3).xRatio = .num qx ∧
      (preprocessing 2 3).yRatio = .num qy ∧
      qx = (max 2 3 : ℚ) / (3 : ℚ) ∧
      qy = (max 2 3 : ℚ) / (2 : ℚ) ∧
      qx * (3 : ℚ) = (max 2 3 : ℚ) ∧
      qy * (2 : ℚ) = (max 2 3 : ℚ) ∧
      (2 = 3 → qx = 1 ∧ qy = 1) ∧
      (2 ≠ 3 → qx ≠ qy)) :=
  ⟨by decide, by decide, by
    have h := c2_preprocessing_ratios 2 3 (by decide) (by decide)
    simpa using h⟩

/-- C3: the decoding loop emits exactly `selected.dims[1]` Boxes, and hence,
when the NMS output satisfies `dims[1] ≤ topk`, never more than `topk`. -/
theorem c3_box_count (sel : SelectedTensor) (xR yR : ℚ) (topk : Nat)
    (h : sel.n ≤ topk) :
    (detectBoxes sel xR yR).length = sel.n ∧
    (detectBoxes sel xR yR).length ≤ topk := by
  have hlen : (detectBoxes sel xR yR).length = sel.n := by
    simp [detectBoxes]
  exact ⟨hlen, hlen ▸ h⟩

/-- C3 witness at a concrete 2-row tensor with topk = 100. -/
theorem c3_box_count_witness :
    (SelectedTensor.mk 2 5 [1, 2, 3, 4, 5, 6, 7, 8, 9, 10]).n ≤ 100 ∧
    ((detectBoxes (SelectedTensor.mk 2 5 [1, 2, 3, 4, 5, 6, 7, 8, 9, 10]) 1 1).length =
        (SelectedTensor.mk 2 5 [1, 2, 3, 4, 5, 6, 7, 8, 9, 10]).n ∧
      (detectBoxes (SelectedTensor.mk 2 5 [1, 2, 3, 4, 5, 6, 7, 8, 9, 10]) 1 1).length ≤ 100) :=
  ⟨by decide,
    c3_box_count (SelectedTensor.mk 2 5 [1, 2, 3, 4, 5, 6, 7, 8, 9, 10]) 1 1 100 (by decide)⟩

/-- C7: the decoded label is the first (lowest) index achieving the maximum
class score and the probability is that maximum; with two equal scores the
lower index wins (scores = [0.5, 0.5] gives label 0). -/
theorem c7_argmax_first (xR yR cx cy w h s : ℚ) (rest : List ℚ) :
    (∃ (i : Nat) (m : ℚ),
        (decodeRow xR yR (cx :: cy :: w :: h :: s :: rest)).label = (i : Int) ∧
        (decodeRow xR yR (cx :: cy :: w :: h :: s :: rest)).probability = .num m ∧
        i < (s :: rest).length ∧
        (s :: rest).getD i 0 = m ∧
        (∀ x ∈ s :: rest, x ≤ m) ∧
        (∀ j < i, (s :: rest).getD j 0 ≠ m)) ∧
    (decodeRow 1 1 [0, 0, 0, 0, 0.5, 0.5]).label = 0 := by
  constructor
  · obtain ⟨m, hm, hmem, hub⟩ := jsMax_spec (s :: rest) (List.cons_ne_nil s rest)
    obtain ⟨i, hi, hlen, hget, hbef⟩ := jsIndexOfQ_spec (s :: rest) m hmem
    refine ⟨i, m, ?_, ?_, hlen, hget, hub, hbef⟩
    · simp [decodeRow, hm, jsIndexOf, hi]
    · simp [decodeRow, hm]
  · norm_num [decodeRow, jsSlice, jsMax, jsIndexOf, jsIndexOfQ]

/-- C10 (implicit): a row of width exactly 4 has an empty score slice, yet a
Box is still emitted, with label = -1 (not a valid class id) and
probability = -Infinity (not a finite value, hence outside [0, 1]). -/
theorem c10_empty_scores (xR yR cx cy w h : ℚ) :
    (decodeRow xR yR [cx, cy, w, h]).label = -1 ∧
    (decodeRow xR yR [cx, cy, w, h]).probability = .negInf ∧
    (∀ q : ℚ, (decodeRow xR yR [cx, cy, w, h]).probability ≠ .num q) ∧
    detectBoxes ⟨1, 4, [cx, cy, w, h]⟩ xR yR = [decodeRow xR yR [cx, cy, w, h]] := by
  refine ⟨rfl, rfl, ?_, rfl⟩
  intro q h
  exact JSRat.noConfusion h

/-- C5: the code has no zero-dimension check — at width 0 it computes an
infinite (or NaN) `xRatio` and proceeds to padding and blob construction,
returning a full result, whereas the spec-modelled `preprocessingSpec` fails
fast with `InvalidImageSource`. -/
theorem c5_zero_width_not_rejected :
    (preprocessing 10 0).xRatio = JSRat.posInf ∧
    (preprocessing 10 0).padRight = 10 ∧
    (preprocessing 10 0).paddedCols = 10 ∧
    (preprocessing 0 0).xRatio = JSRat.nan ∧
    preprocessingSpec 10 0 = .error .invalidImageSource := by
  norm_num [preprocessing, preprocessingSpec, jsDiv]

/-- C6: a pump tick with `videoWidth = 0` and no attached stream clears the
canvas and schedules nothing — the run of the pump ends there; any other
tick runs the frame pipeline (reaches the forward pass) and does not clear
the canvas. -/
theorem c6_pump_stop_condition (p : TickParams) (ps : List TickParams) :
    (p.videoWidth = 0 ∧ p.hasStream = false →
      (pumpTick p).1 = [Event.clearCanvas] ∧
      Event.scheduleTick ∉ (pumpTick p).1 ∧
      pumpRun (p :: ps) = [Event.clearCanvas]) ∧
    (¬(p.videoWidth = 0 ∧ p.hasStream = false) →
      Event.netRunStart ∈ (pumpTick p).1 ∧
      Event.clearCanvas ∉ (pumpTick p).1) := by
  obtain ⟨vw, hs, no, mo⟩ := p
  constructor
  · intro h
    have h' : vw = 0 ∧ hs = false := h
    have ht : (pumpTick ⟨vw, hs, no, mo⟩).1 = [Event.clearCanvas] := by
      simp [pumpTick, h'.1, h'.2]
    refine ⟨ht, by simp [ht], ?_⟩
    simp [pumpRun, ht]
  · intro h
    have ht : (pumpTick ⟨vw, hs, no, mo⟩).1 =
        (detectImageRun no mo [Event.scheduleTick]).1 := by
      simp only [pumpTick]
      rw [if_neg h]
    rw [ht]
    cases no <;> cases mo <;> decide

/-- C6 witness: a stopped tick at `videoWidth = 0`, no stream, and a running
tick at `videoWidth = 640` with a stream. -/
theorem c6_pump_stop_condition_witness :
    ((pumpTick ⟨0, false, true, true⟩).1 = [Event.clearCanvas] ∧
      Event.scheduleTick ∉ (pumpTick ⟨0, false, true, true⟩).1 ∧
      pumpRun [⟨0, false, true, true⟩, ⟨640, true, true, true⟩] = [Event.clearCanvas]) ∧
    (Event.netRunStart ∈ (pumpTick ⟨640, true, true, true⟩).1 ∧
      Event.clearCanvas ∉ (pumpTick ⟨640, true, true, true⟩).1) :=
  ⟨(c6_pump_stop_condition ⟨0, false, true, true⟩ [⟨640, true, true, true⟩]).1
      (by decide),
   (c6_pump_stop_condition ⟨640, true, true, true⟩ []).2 (by decide)⟩

/-- C4: on a tick whose forward pass rejects, the rejection of the
un-awaited, un-caught `detectFrame(...)` promise is unhandled, the
completion callback never runs, `requestAnimationFrame` is never called, and
the pump run ends even though a further healthy tick environment was
available — contradicting the claim that the frame is dropped and the next
tick still scheduled. -/
theorem c4_rejection_halts_pump :
    (pumpTick ⟨640, true, false, true⟩).2 = true ∧
    Event.callbackInvoke ∉ (pumpTick ⟨640, true, false, true⟩).1 ∧
    Event.scheduleTick ∉ (pumpTick ⟨640, true, false, true⟩).1 ∧
    pumpRun [⟨640, true, false, true⟩, ⟨640, true, true, true⟩] =
      (pumpTick ⟨640, true, false, true⟩).1 ∧
    (pumpTick ⟨640, true, true, false⟩).2 = true ∧
    Event.scheduleTick ∉ (pumpTick ⟨640, true, true, false⟩).1 := by
  decide

/-- C8: on the success path every native buffer is allocated and released
exactly once, but on the path where the forward pass (or the NMS call)
rejects, the `input` blob allocated by `preprocessing` is never released —
`input.delete()` on detect.js line 70 is unreachable after the rejected
await — contradicting the release-exactly-once claim for every exit path. -/
theorem c8_blob_leak_on_rejection :
    ((detectImageRun true true []).1.count (Event.alloc Buffer.mat) = 1 ∧
     (detectImageRun true true []).1.count (Event.deleteBuf Buffer.mat) = 1 ∧
     (detectImageRun true true []).1.count (Event.alloc Buffer.matC3) = 1 ∧
     (detectImageRun true true []).1.count (Event.deleteBuf Buffer.matC3) = 1 ∧
     (detectImageRun true true []).1.count (Event.alloc Buffer.matPad) = 1 ∧
     (detectImageRun true true []).1.count (Event.deleteBuf Buffer.matPad) = 1 ∧
     (detectImageRun true true []).1.count (Event.alloc Buffer.inputBlob) = 1 ∧
     (detectImageRun true true []).1.count (Event.deleteBuf Buffer.inputBlob) = 1) ∧
    ((detectImageRun false true []).2 = .rejected ∧
     (detectImageRun false true []).1.count (Event.alloc Buffer.inputBlob) = 1 ∧
     (detectImageRun false true []).1.count (Event.deleteBuf Buffer.inputBlob) = 0) ∧
    ((detectImageRun true false []).2 = .rejected ∧
     (detectImageRun true false []).1.count (Event.deleteBuf Buffer.inputBlob) = 0) := by
  decide

/-! Helper lemmas for the in-flight bound (C9). -/

theorem inFlight_cons (e : Event) (t : List Event) :
    inFlight (e :: t) = inferDelta e + inFlight t := by
  simp [inFlight]

theorem inFlightOk_append (c : Int) (t₁ t₂ : List Event) :
    inFlightOk c (t₁ ++ t₂) =
      (inFlightOk c t₁ && inFlightOk (c + inFlight t₁) t₂) := by
  induction t₁ generalizing c with
  | nil => simp [inFlightOk, inFlight]
  | cons e es ih =>
    simp only [List.cons_append, inFlightOk, inFlight_cons, Bool.and_assoc,
      List.append_eq]
    rw [ih, add_assoc]

theorem inFlightOk_le (t : List Event) : ∀ c : Int, inFlightOk c t = true → c ≤ 1 →
    ∀ n : Nat, c + inFlight (t.take n) ≤ 1 := by
  induction t with
  | nil => intro c _ hc n; simpa [inFlight] using hc
  | cons e es ih =>
    intro c hok hc n
    simp only [inFlightOk, Bool.and_eq_true, decide_eq_true_eq] at hok
    obtain ⟨h1, h2⟩ := hok
    cases n with
    | zero => simpa [inFlight] using hc
    | succ k =>
      rw [List.take_succ_cons, inFlight_cons]
      have h3 := ih (c + inferDelta e) h2 h1 k
      linarith

theorem pumpTick_inFlightOk (p : TickParams) :
    inFlightOk 0 (pumpTick p).1 = true ∧ inFlight (pumpTick p).1 = 0 := by
  obtain ⟨vw, hs, no, mo⟩ := p
  by_cases h : vw = 0 ∧ hs = false
  · constructor <;> simp [pumpTick, h.1, h.2, inFlightOk, inferDelta, inFlight]
  · have ht : (pumpTick ⟨vw, hs, no, mo⟩).1 =
        (detectImageRun no mo [Event.scheduleTick]).1 := by
      simp only [pumpTick]
      rw [if_neg h]
    rw [ht]
    cases no <;> cases mo <;> decide

theorem pumpRun_inFlightOk (ps : List TickParams) :
    inFlightOk 0 (pumpRun ps) = true := by
  induction ps with
  | nil => rfl
  | cons p ps ih =>
    obtain ⟨h1, h2⟩ := pumpTick_inFlightOk p
    simp only [pumpRun]
    rw [inFlightOk_append, h1, h2]
    by_cases hm : Event.scheduleTick ∈ (pumpTick p).1
    · simpa [hm] using ih
    · simp [hm, inFlightOk]

/-- C9: along any run of the pump at most one backend invocation is ever in
flight, and in any tick that schedules a next tick, the renderer call comes
before the completion callback, which comes before the
`requestAnimationFrame` rescheduling. -/
theorem c9_no_concurrent_inference (ps : List TickParams) (n : Nat)
    (p : TickParams) (hp : Event.scheduleTick ∈ (pumpTick p).1) :
    inFlight ((pumpRun ps).take n) ≤ 1 ∧
    (pumpTick p).1.indexOf Event.render <
      (pumpTick p).1.indexOf Event.callbackInvoke ∧
    (pumpTick p).1.indexOf Event.callbackInvoke <
      (pumpTick p).1.indexOf Event.scheduleTick := by
  obtain ⟨vw, hs, no, mo⟩ := p
  refine ⟨?_, ?_⟩
  · have h := inFlightOk_le (pumpRun ps) 0 (pumpRun_inFlightOk ps) (by norm_num) n
    simpa using h
  · by_cases h : vw = 0 ∧ hs = false
    · rw [show (pumpTick ⟨vw, hs, no, mo⟩).1 = [Event.clearCanvas] by
        simp [pumpTick, h.1, h.2]] at hp
      simp at hp
    · have ht : (pumpTick ⟨vw, hs, no, mo⟩).1 =
          (detectImageRun no mo [Event.scheduleTick]).1 := by
        simp only [pumpTick]
        rw [if_neg h]
      rw [ht] at hp ⊢
      cases no <;> cases mo <;>
        first
          | exact absurd hp (by decide)
          | decide

/-- C9 witness: a one-tick healthy run. -/
theorem c9_no_concurrent_inference_witness :
    Event.scheduleTick ∈ (pumpTick ⟨640, true, true, true⟩).1 ∧
    (inFlight ((pumpRun [⟨640, true, true, true⟩]).take 5) ≤ 1 ∧
      (pumpTick ⟨640, true, true, true⟩).1.indexOf Event.render <
        (pumpTick ⟨640, true, true, true⟩).1.indexOf Event.callbackInvoke ∧
      (pumpTick ⟨640, true, true, true⟩).1.indexOf Event.callbackInvoke <
        (pumpTick ⟨640, true, true, true⟩).1.indexOf Event.scheduleTick) :=
  ⟨by decide,
   c9_no_concurrent_inference [⟨640, true, true, true⟩] 5 ⟨640, true, true, true⟩
     (by decide)⟩

end Detect
